import Mathlib

/-!
Verification of the FYP natural-language-to-SQL assistant.

This file gives a shallow embedding, in Lean 4, of the parts of the Python
source that the specification's claims are about:

* `src/agent/validator.py` — `QueryValidator` (`validate`,
  `_check_dangerous_keywords`, `_is_select_query`, `_check_sql_injection`,
  `_has_multiple_statements`, `get_query_complexity`);
* `src/agent/query_executor.py` — `QueryExecutor.execute`;
* `src/agent/nodes.py` — `GenerateSQLNode.__call__`;
* `src/agent/edges.py` — `should_continue_after_generation`;
* `src/agent/state.py` — the workflow-state fields the generation loop reads;
* `src/utils/helpers.py` — `QueryCache`, `truncate_text`;
* `src/agent/conversation_manager.py` — `ConversationManager.add_message`;
* `src/database/schema_manager.py` — `_build_indexes`,
  `find_tables_with_column`.

Python strings are modelled as `List Char` (SQL text here is ASCII, so
`str.upper`/`str.lower` agree with the ASCII case maps below); Python
exceptions are modelled as `Except.error` carrying the exception message;
Python dicts whose insertion order matters (`OrderedDict`) are modelled as
association lists in insertion order.
-/

namespace FYP

set_option maxRecDepth 20000

/-! ### Character classes (ASCII, as used by the regex patterns) -/

/-- Python `str.strip` whitespace / regex `\s`, restricted to ASCII:
space, tab, newline, carriage return, vertical tab, form feed. -/
def pyIsSpace (c : Char) : Bool :=
  c.toNat = 32 || c.toNat = 9 || c.toNat = 10 || c.toNat = 13 ||
    c.toNat = 11 || c.toNat = 12

/-- Regex `\w` (word character), restricted to ASCII:
digits, upper-case letters, lower-case letters, underscore. -/
def isWordChar (c : Char) : Bool :=
  (48 ≤ c.toNat && c.toNat ≤ 57) || (65 ≤ c.toNat && c.toNat ≤ 90) ||
    (97 ≤ c.toNat && c.toNat ≤ 122) || c.toNat = 95

/-- ASCII upper-casing of one character (Python `str.upper` on ASCII text). -/
def pyToUpper (c : Char) : Char :=
  match c with
  | 'a' => 'A' | 'b' => 'B' | 'c' => 'C' | 'd' => 'D' | 'e' => 'E'
  | 'f' => 'F' | 'g' => 'G' | 'h' => 'H' | 'i' => 'I' | 'j' => 'J'
  | 'k' => 'K' | 'l' => 'L' | 'm' => 'M' | 'n' => 'N' | 'o' => 'O'
  | 'p' => 'P' | 'q' => 'Q' | 'r' => 'R' | 's' => 'S' | 't' => 'T'
  | 'u' => 'U' | 'v' => 'V' | 'w' => 'W' | 'x' => 'X' | 'y' => 'Y'
  | 'z' => 'Z'
  | other => other

/-- ASCII lower-casing of one character (Python `str.lower` on ASCII text). -/
def pyToLower (c : Char) : Char :=
  match c with
  | 'A' => 'a' | 'B' => 'b' | 'C' => 'c' | 'D' => 'd' | 'E' => 'e'
  | 'F' => 'f' | 'G' => 'g' | 'H' => 'h' | 'I' => 'i' | 'J' => 'j'
  | 'K' => 'k' | 'L' => 'l' | 'M' => 'm' | 'N' => 'n' | 'O' => 'o'
  | 'P' => 'p' | 'Q' => 'q' | 'R' => 'r' | 'S' => 's' | 'T' => 't'
  | 'U' => 'u' | 'V' => 'v' | 'W' => 'w' | 'X' => 'x' | 'Y' => 'y'
  | 'Z' => 'z'
  | other => other

/-- Python `s.upper()` on a character list. -/
def pyUpper (s : List Char) : List Char := s.map pyToUpper

/-! ### Python `str.strip` -/

/-- Drop leading whitespace. -/
def stripLeft (s : List Char) : List Char := s.dropWhile pyIsSpace

/-- Drop trailing whitespace. -/
def stripRight (s : List Char) : List Char :=
  match s with
  | [] => []
  | c :: rest =>
    match stripRight rest with
    | [] => if pyIsSpace c then [] else [c]
    | r => c :: r

/-- Python `s.strip()`. -/
def pyStrip (s : List Char) : List Char := stripRight (stripLeft s)

/-! ### Substring and whole-word search -/

/-- Python `needle in haystack` (substring containment).
`containsSub [] s = true`, matching Python. -/
def containsSub (needle : List Char) : List Char → Bool
  | [] => needle.isEmpty
  | c :: rest => needle.isPrefixOf (c :: rest) || containsSub needle rest

/-- Helper for `countSub`: while `skip > 0` the scanner is still inside the
previous match and may not start a new one. -/
def countSubAux (needle : List Char) (skip : Nat) : List Char → Nat
  | [] => 0
  | c :: rest =>
    match skip with
    | Nat.succ k => countSubAux needle k rest
    | 0 =>
      if needle ≠ [] ∧ needle.isPrefixOf (c :: rest) then
        1 + countSubAux needle (needle.length - 1) rest
      else countSubAux needle 0 rest

/-- Python `haystack.count(needle)`: number of non-overlapping occurrences,
scanning left to right and skipping past each match. -/
def countSub (needle : List Char) (haystack : List Char) : Nat :=
  countSubAux needle 0 haystack

/-- After a candidate match of `kw` at the head of `s`, the regex `\b` on the
right holds: the character following the match (if any) is not a word
character. -/
def boundaryAfter (kw s : List Char) : Bool :=
  match s.drop kw.length with
  | [] => true
  | c :: _ => !isWordChar c

/-- Scan of `re.search(r'\b' + kw + r'\b', s)` for a keyword `kw` made of word
characters: `prev` records whether the character just before the current
position is a word character (`false` at the start of the string). -/
def wwAux (kw : List Char) (prev : Bool) : List Char → Bool
  | [] => false
  | c :: rest =>
    (!prev && kw.isPrefixOf (c :: rest) && boundaryAfter kw (c :: rest)) ||
      wwAux kw (isWordChar c) rest

/-- `re.search(r'\b' + kw + r'\b', s) is not None` for a keyword `kw` of word
characters. -/
def containsWholeWord (kw s : List Char) : Bool := wwAux kw false s

/-- Number of matches of `re.findall(r'\b' + kw + r'\b', s)`.  Whole-word
matches of a fixed keyword can never overlap (both flanks are non-word
characters while the keyword is all word characters), so counting every
matching position equals the non-overlapping `findall` count. -/
def cwwAux (kw : List Char) (prev : Bool) : List Char → Nat
  | [] => 0
  | c :: rest =>
    (if !prev && kw.isPrefixOf (c :: rest) && boundaryAfter kw (c :: rest)
      then 1 else 0) + cwwAux kw (isWordChar c) rest

/-- `len(re.findall(r'\b' + kw + r'\b', s))` for a keyword of word chars. -/
def countWholeWord (kw s : List Char) : Nat := cwwAux kw false s

/-! ### The injection-pattern regexes of `_check_sql_injection`

Each pattern used by the code is an alternation-free sequence of literal
pieces and `\s*` gaps (or one of the two bespoke shapes handled below), so a
deterministic maximal-munch matcher is exact: every literal piece starts with
a non-whitespace character, hence greedy consumption of `\s*` never needs
backtracking.  `re.IGNORECASE` is modelled by matching upper-cased literals
against the upper-cased text. -/

/-- One piece of a literal/`\s*` regex. -/
inductive PatTok : Type
  | lit (cs : List Char)
  | ws
deriving DecidableEq

/-- Match a literal/`\s*` sequence at the start of `s`. -/
def matchToks : List PatTok → List Char → Bool
  | [], _ => true
  | PatTok.lit cs :: ts, s => cs.isPrefixOf s && matchToks ts (s.drop cs.length)
  | PatTok.ws :: ts, s => matchToks ts (s.dropWhile pyIsSpace)

/-- `re.search` of a literal/`\s*` sequence: try every start position. -/
def searchToks (ts : List PatTok) : List Char → Bool
  | [] => matchToks ts []
  | c :: rest => matchToks ts (c :: rest) || searchToks ts rest

/-- The single-quote character. -/
def qc : Char := Char.ofNat 39

/-- Pattern `'\s*OR\s*'1'\s*=\s*'1` (on upper-cased text). -/
def patTautology1 : List PatTok :=
  [PatTok.lit [qc], PatTok.ws, PatTok.lit ['O', 'R'], PatTok.ws,
    PatTok.lit [qc, '1', qc], PatTok.ws, PatTok.lit ['='], PatTok.ws,
    PatTok.lit [qc, '1']]

/-- Pattern `'\s*OR\s*1\s*=\s*1` (on upper-cased text). -/
def patTautology2 : List PatTok :=
  [PatTok.lit [qc], PatTok.ws, PatTok.lit ['O', 'R'], PatTok.ws,
    PatTok.lit ['1'], PatTok.ws, PatTok.lit ['='], PatTok.ws,
    PatTok.lit ['1']]

/-- Pattern `;\s*DROP` (on upper-cased text). -/
def patChainDrop : List PatTok :=
  [PatTok.lit [';'], PatTok.ws, PatTok.lit ['D', 'R', 'O', 'P']]

/-- Pattern `;\s*DELETE` (on upper-cased text). -/
def patChainDelete : List PatTok :=
  [PatTok.lit [';'], PatTok.ws, PatTok.lit ['D', 'E', 'L', 'E', 'T', 'E']]

/-- Pattern `--\s*$`: without `re.MULTILINE`, `$` matches at the end of the
string or just before a final newline, and `\s*` may absorb that newline, so
the pattern matches exactly when some occurrence of `--` is followed only by
whitespace. -/
def hasTrailingComment : List Char → Bool
  | [] => false
  | c :: rest =>
    (('-' :: '-' :: []).isPrefixOf (c :: rest) &&
      ((c :: rest).drop 2).all pyIsSpace) || hasTrailingComment rest

/-- After an occurrence of `/*`, look for `*/` reachable without crossing a
newline (regex `.` does not match a newline). -/
def blockCloseBeforeNewline : List Char → Bool
  | [] => false
  | c :: rest =>
    if ('*' :: '/' :: []).isPrefixOf (c :: rest) then true
    else if c = Char.ofNat 10 then false
    else blockCloseBeforeNewline rest

/-- Pattern `/\*.*\*/`: some `/*` with a `*/` after it on the same line. -/
def hasBlockComment : List Char → Bool
  | [] => false
  | c :: rest =>
    (('/' :: '*' :: []).isPrefixOf (c :: rest) &&
      blockCloseBeforeNewline ((c :: rest).drop 2)) || hasBlockComment rest

/-- `QueryValidator._check_sql_injection`: true iff any of the eight
injection patterns matches (all searched case-insensitively, modelled by
searching the upper-cased text). -/
def checkSqlInjection (q : List Char) : Bool :=
  let u := pyUpper q
  searchToks patTautology1 u || searchToks patTautology2 u ||
    hasTrailingComment u || hasBlockComment u ||
    searchToks patChainDrop u || searchToks patChainDelete u ||
    containsSub ('X' :: 'P' :: '_' :: "CMDSHELL".data) u ||
    containsSub ('S' :: 'P' :: '_' :: "EXECUTESQL".data) u

/-! ### `_has_multiple_statements` -/

/-- Helper for `removeQuoted`: `buf = some b` means we are inside a
candidate `'...'` group whose characters so far (reversed, opening quote
included) are `b`; if the string ends before a closing quote, the group had
no match and its characters are emitted unchanged. -/
def removeQuotedAux (buf : Option (List Char)) : List Char → List Char
  | [] =>
    match buf with
    | none => []
    | some b => b.reverse
  | c :: rest =>
    match buf with
    | none =>
      if c = qc then removeQuotedAux (some [c]) rest
      else c :: removeQuotedAux none rest
    | some b =>
      if c = qc then removeQuotedAux none rest
      else removeQuotedAux (some (c :: b)) rest

/-- `re.sub(r"'[^']*'", "", query)`: delete every leftmost-first
non-overlapping `'...'` group (a lone unmatched quote is kept). -/
def removeQuoted (s : List Char) : List Char := removeQuotedAux none s

/-- `QueryValidator._has_multiple_statements`. -/
def hasMultipleStatements (q : List Char) : Bool :=
  let cleaned := removeQuoted q
  let semicolons := cleaned.count ';'
  if 1 < semicolons then true
  else if semicolons = 1 && !((pyStrip cleaned).getLast? == some ';') then true
  else false

/-! ### `QueryValidator` -/

/-- `QueryValidator.DANGEROUS_KEYWORDS` (in source order). -/
def DANGEROUS_KEYWORDS : List String :=
  ["DROP", "DELETE", "TRUNCATE", "INSERT", "UPDATE",
    "ALTER", "CREATE", "REPLACE", "GRANT", "REVOKE",
    "EXEC", "EXECUTE", "DECLARE", "SHUTDOWN",
    "xp_cmdshell", "sp_executesql"]

/-- `QueryValidator._check_dangerous_keywords`, reporting the first keyword
whose `\b...\b` pattern matches the upper-cased query (or `none`). -/
def checkDangerousKeywords (q : List Char) : Option String :=
  DANGEROUS_KEYWORDS.find? fun kw => containsWholeWord kw.data (pyUpper q)

/-- `QueryValidator._is_select_query`. -/
def isSelectQuery (q : List Char) : Bool :=
  let u := pyUpper (pyStrip q)
  if "WITH".data.isPrefixOf u then containsSub "SELECT".data u
  else "SELECT".data.isPrefixOf u

/-- The single-quote character as a one-character string. -/
def sq : String := String.mk [qc]

/-- `QueryValidator.validate`: returns `Except.ok true` when the query is
accepted; a raised exception is modelled as `Except.error` carrying the
exception message. -/
def validate (query : String) : Except String Bool :=
  if pyStrip query.data = [] then Except.error "Query is empty"
  else
    let q := pyStrip query.data
    match checkDangerousKeywords q with
    | some kw =>
      Except.error ("Dangerous keyword " ++ sq ++ kw ++ sq ++
        " is not allowed. Only SELECT queries are permitted.")
    | none =>
      if !isSelectQuery q then Except.error "Only SELECT queries are allowed"
      else if checkSqlInjection q then
        Except.error
          "Query contains potentially malicious patterns. Please rephrase your query."
      else if hasMultipleStatements q then
        Except.error "Multiple SQL statements are not allowed"
      else Except.ok true

/-! ### `QueryValidator.get_query_complexity` -/

/-- The complexity score accumulated by `get_query_complexity` (a Python
int: the `- 1` for the main SELECT can drive it negative). -/
def complexityScore (query : String) : Int :=
  let u := pyUpper query.data
  2 * (countWholeWord "JOIN".data u : Int) +
    3 * ((countSub "SELECT".data u : Int) - 1) +
    ((countSub "COUNT".data u : Int) + (countSub "SUM".data u : Int) +
      (countSub "AVG".data u : Int) + (countSub "MIN".data u : Int) +
      (countSub "MAX".data u : Int)) +
    (if containsSub "GROUP BY".data u then 2 else 0) +
    (if containsSub "HAVING".data u then 2 else 0) +
    (if "WITH".data.isPrefixOf u then 3 else 0)

/-- `QueryValidator.get_query_complexity`. -/
def getQueryComplexity (query : String) : String :=
  let s := complexityScore query
  if s = 0 then "simple"
  else if s ≤ 5 then "moderate"
  else "complex"

/-! ### `QueryExecutor.execute` (src/agent/query_executor.py)

Rows returned by the database layer are opaque here; the database call is a
parameter.  The outer `Except` models exceptions escaping `execute` itself:
`Except.error` means an uncaught exception left the function. -/

/-- The success dictionary built by `QueryExecutor.execute`. -/
structure ExecSuccess (Row : Type) : Type where
  results : List Row
  row_count : Nat
  execution_time : String
  complexity : String
  query : String

/-- The failure dictionary built by `QueryExecutor.execute`. -/
structure ExecFailure : Type where
  error : String
  query : String

/-- The structured payload (`success=true` or `success=false`) that
`execute` is documented to return. -/
inductive ExecResult (Row : Type) : Type
  | success (payload : ExecSuccess Row)
  | failure (payload : ExecFailure)

/-- `QueryExecutor.execute`.  Line 30 of the source is
`is_valid, error_message = self.validator.validate(sql_query)`:
`QueryValidator.validate` returns the single boolean `True` or raises an
exception.  If it raises, the exception propagates (the call sits outside
the `try` block); if it returns `True`, unpacking the non-iterable boolean
into the pair raises `TypeError`.  Either way an exception escapes, and the
code from the complexity computation onward is unreachable. -/
def execute {Row : Type} (dbExecuteQuery : String → Except String (List Row))
    (sqlQuery : String) : Except String (ExecResult Row) :=
  match validate sqlQuery with
  | Except.error e => Except.error e
  | Except.ok _ => Except.error "TypeError: cannot unpack non-iterable bool object"

/-! ### The generation loop of the workflow
(src/agent/state.py, src/agent/nodes.py, src/agent/edges.py) -/

/-- `AgentStatus` from src/agent/state.py. -/
inductive AgentStatus : Type
  | INITIALIZED | UNDERSTANDING | GENERATING | VALIDATING | REFINING
  | EXECUTING | FORMATTING | SUCCESS | FAILED
deriving DecidableEq

/-- The slice of `ConversationState` read and written by the
generate/route-after-generate loop. -/
structure WorkflowState : Type where
  user_query : String
  generated_sql : Option String
  sql_explanation : Option String
  generation_attempt : Nat
  max_attempts : Nat
  error_message : Option String
  status : AgentStatus
deriving DecidableEq

/-- The corresponding slice of `create_initial_state`. -/
def createInitialState (userQuery : String) : WorkflowState :=
  { user_query := userQuery
    generated_sql := none
    sql_explanation := none
    generation_attempt := 0
    max_attempts := 3
    error_message := none
    status := AgentStatus.INITIALIZED }

/-- A partial state update returned by `GenerateSQLNode.__call__`: `none`
means the key is absent from the returned dictionary, `some v` that the key
is present with value `v`. -/
structure GenUpdate : Type where
  generated_sql : Option (Option String)
  sql_explanation : Option String
  generation_attempt : Option Nat
  status : Option AgentStatus
  error_message : Option (Option String)
deriving DecidableEq

/-- `GenerateSQLNode.__call__`.  The generation service
(`SQLGenerator.generate_sql`, together with `_build_generation_context`,
which only contributes to the prompt string) is abstracted as `generateSql`;
`Except.error` is a raised exception, caught by the node's `except` branch. -/
def generateSQLNode (generateSql : String → Except String (String × String))
    (state : WorkflowState) : GenUpdate :=
  match generateSql state.user_query with
  | Except.ok (sql, explanation) =>
    { generated_sql := some (some sql)
      sql_explanation := some explanation
      generation_attempt := some (state.generation_attempt + 1)
      status := some AgentStatus.GENERATING
      error_message := some none }
  | Except.error e =>
    { generated_sql := some none
      sql_explanation := none
      generation_attempt := none
      status := some AgentStatus.FAILED
      error_message := some (some ("Failed to generate SQL: " ++ e)) }

/-- LangGraph merges a node's partial update into the running state
(last-write-wins per present key). -/
def applyGenUpdate (s : WorkflowState) (u : GenUpdate) : WorkflowState :=
  { s with
    generated_sql := match u.generated_sql with
      | some v => v
      | none => s.generated_sql
    sql_explanation := match u.sql_explanation with
      | some v => some v
      | none => s.sql_explanation
    generation_attempt := match u.generation_attempt with
      | some v => v
      | none => s.generation_attempt
    status := match u.status with
      | some v => v
      | none => s.status
    error_message := match u.error_message with
      | some v => v
      | none => s.error_message }

/-- Python truthiness of `state.get('generated_sql')` (an absent key or an
empty string is falsy). -/
def truthyStr : Option String → Bool
  | none => false
  | some s => !(s == "")

/-- `should_continue_after_generation` from src/agent/edges.py.  The state
always carries `generation_attempt` and `max_attempts`, so the `.get`
defaults (0 and 3) never fire. -/
def shouldContinueAfterGeneration (state : WorkflowState) : String :=
  if truthyStr state.generated_sql then "validate"
  else if state.generation_attempt < state.max_attempts then "generate"
  else "end_with_error"

/-- One pass around the generate loop: run the Generate node, merge its
partial update. -/
def generateStep (generateSql : String → Except String (String × String))
    (s : WorkflowState) : WorkflowState :=
  applyGenUpdate s (generateSQLNode generateSql s)

/-! ### `QueryCache` (src/utils/helpers.py)

An `OrderedDict` is modelled as an association list in insertion order
(head = least recently used, last = most recently used); its keys are
unique.  The key type is a parameter (Python keys are arbitrary
hashables; the CLI uses strings). -/

structure QueryCache (K V : Type) : Type where
  cache : List (K × V)
  maxsize : Nat
deriving DecidableEq

/-- `QueryCache(maxsize=n)`: empty ordered dict. -/
def QueryCache.init (K V : Type) (maxsize : Nat) : QueryCache K V :=
  ⟨[], maxsize⟩

/-- `key in self.cache` / `self.cache[key]`: the unique entry for `key`. -/
def QueryCache.lookupEntry {K V : Type} [DecidableEq K] (c : QueryCache K V)
    (key : K) : Option (K × V) :=
  c.cache.find? fun p => decide (p.1 = key)

/-- `QueryCache.get`: on a hit, `move_to_end(key)` then return the value;
on a miss return `None` and leave the cache unchanged. -/
def QueryCache.get {K V : Type} [DecidableEq K] (c : QueryCache K V)
    (key : K) : Option V × QueryCache K V :=
  match c.lookupEntry key with
  | some e =>
    (some e.2, ⟨(c.cache.filter fun p => !decide (p.1 = key)) ++ [e], c.maxsize⟩)
  | none => (none, c)

/-- `QueryCache.set`: on a present key, `move_to_end(key)` then overwrite the
value (now at the most-recently-used end); on a new key, first
`popitem(last=False)` (evict the least recently used, i.e. the head) when
`len(cache) >= maxsize`, then append at the most-recently-used end. -/
def QueryCache.set {K V : Type} [DecidableEq K] (c : QueryCache K V)
    (key : K) (value : V) : QueryCache K V :=
  if (c.lookupEntry key).isSome then
    ⟨(c.cache.filter fun p => !decide (p.1 = key)) ++ [(key, value)], c.maxsize⟩
  else if c.maxsize ≤ c.cache.length then
    ⟨c.cache.tail ++ [(key, value)], c.maxsize⟩
  else
    ⟨c.cache ++ [(key, value)], c.maxsize⟩

/-- A client call against the cache. -/
inductive CacheOp (K V : Type) : Type
  | get (key : K)
  | set (key : K) (value : V)

/-- Run one call. -/
def QueryCache.applyOp {K V : Type} [DecidableEq K] (c : QueryCache K V) :
    CacheOp K V → QueryCache K V
  | CacheOp.get k => (c.get k).2
  | CacheOp.set k v => c.set k v

/-- Run a sequence of calls. -/
def QueryCache.applyOps {K V : Type} [DecidableEq K] (c : QueryCache K V)
    (ops : List (CacheOp K V)) : QueryCache K V :=
  ops.foldl QueryCache.applyOp c

/-! ### `ConversationManager.add_message` (history bounding) -/

/-- Python `l[-n:]` for `n ≥ 0`; note `l[-0:]` is the whole list. -/
def pyTakeLast {α : Type} (n : Nat) (l : List α) : List α :=
  if n = 0 then l else l.drop (l.length - n)

/-- `ConversationManager.add_message`, restricted to its effect on one
session's message list (message contents are opaque): append, then if the
length exceeds `max_history * 2` keep only the last `max_history * 2`. -/
def addMessage {M : Type} (maxHistory : Nat) (history : List M) (message : M) :
    List M :=
  let h := history ++ [message]
  if maxHistory * 2 < h.length then pyTakeLast (maxHistory * 2) h else h

/-! ### `truncate_text` (src/utils/helpers.py) -/

/-- Python `l[:k]` for an arbitrary integer `k` (a negative `k` counts from
the end). -/
def pySliceTo {α : Type} (k : Int) (l : List α) : List α :=
  l.take (if k < 0 then ((l.length : Int) + k).toNat else k.toNat)

/-- `truncate_text(text, max_length, suffix)`. -/
def truncateText (text : String) (maxLength : Nat) (suffix : String) : String :=
  if text.data.length ≤ maxLength then text
  else
    String.mk
      (pySliceTo ((maxLength : Int) - (suffix.data.length : Int)) text.data ++
        suffix.data)

/-! ### `SchemaManager` column index (src/database/schema_manager.py) -/

/-- The slice of one table's introspected info that `_build_indexes` reads
for the column index: the `name` field of each column dict, in order. -/
structure TableInfo : Type where
  columns : List String
deriving DecidableEq

/-- `self.column_to_tables.setdefault(col, []).append(table_name)` on an
insertion-ordered dict modelled as an association list. -/
def addToIndex (idx : List (String × List String)) (col : String)
    (table : String) : List (String × List String) :=
  match idx with
  | [] => [(col, [table])]
  | (c, ts) :: rest =>
    if c = col then (c, ts ++ [table]) :: rest
    else (c, ts) :: addToIndex rest col table

/-- The `column_to_tables` index built by `SchemaManager._build_indexes`:
keyed by each column's name exactly as it appears in the schema. -/
def buildColumnToTables (schema : List (String × TableInfo)) :
    List (String × List String) :=
  schema.foldl
    (fun idx t => t.2.columns.foldl (fun idx2 col => addToIndex idx2 col t.1) idx)
    []

/-- Python `s.lower()` on ASCII text. -/
def pyLowerStr (s : String) : String := String.mk (s.data.map pyToLower)

/-- `SchemaManager.find_tables_with_column`: looks up the lower-cased
argument in the original-case index. -/
def findTablesWithColumn (schema : List (String × TableInfo))
    (columnName : String) : List String :=
  match (buildColumnToTables schema).find?
      (fun p => decide (p.1 = pyLowerStr columnName)) with
  | some p => p.2
  | none => []

/-! ## Theorems -/

theorem isWordChar_not_space {c : Char} (h : isWordChar c = true) :
    pyIsSpace c = false := by
  unfold isWordChar at h
  unfold pyIsSpace
  simp only [Bool.or_eq_true, Bool.and_eq_true, decide_eq_true_eq] at h
  simp only [Bool.or_eq_false_iff, decide_eq_false_iff_not]
  omega

theorem pyIsSpace_pyToUpper (c : Char) :
    pyIsSpace (pyToUpper c) = pyIsSpace c := by
  unfold pyToUpper
  split <;> rfl

/-! ### Whole-word matches survive `strip()`

`validate` strips the query before running `_check_dangerous_keywords`, so to
conclude anything from a whole-word occurrence in the raw query we prove that
stripping outer whitespace neither creates nor destroys such an occurrence
(we only need the "not destroys" direction). -/

theorem space_not_wordChar {c : Char} (h : pyIsSpace c = true) :
    isWordChar c = false := by
  cases hw : isWordChar c
  · rfl
  · rw [isWordChar_not_space hw] at h
    exact absurd h (by simp)

theorem wwAux_nil (kw : List Char) (prev : Bool) : wwAux kw prev [] = false := rfl

/-- A keyword matching at the very start of the string is a whole-word match
(the left boundary is the start of the string, the right one is
`boundaryAfter`). -/
theorem wwAux_of_head_match {kw s : List Char} (hne : kw ≠ [])
    (hpre : kw.isPrefixOf s = true) (hbnd : boundaryAfter kw s = true) :
    wwAux kw false s = true := by
  cases kw with
  | nil => exact absurd rfl hne
  | cons k0 ks =>
    cases s with
    | nil => simp [List.isPrefixOf] at hpre
    | cons c rest =>
      unfold wwAux
      rw [hpre, hbnd]
      simp

theorem wwAux_dropWhile {kw : List Char} (hne : kw ≠ [])
    (hall : kw.all isWordChar = true) :
    ∀ {s : List Char}, wwAux kw false s = true →
      wwAux kw false (s.dropWhile pyIsSpace) = true := by
  intro s
  induction s with
  | nil => intro h; simp [wwAux_nil] at h
  | cons c rest ih =>
    intro h
    by_cases hc : pyIsSpace c = true
    · rw [List.dropWhile_cons, if_pos hc]
      unfold wwAux at h
      rcases Bool.or_eq_true _ _ |>.mp h with hm | hr
      · -- a match at position 0 would make the keyword start with whitespace
        exfalso
        have hpre : kw.isPrefixOf (c :: rest) = true := by
          rcases Bool.and_eq_true _ _ |>.mp hm with ⟨h1, _⟩
          exact (Bool.and_eq_true _ _ |>.mp h1).2
        cases kw with
        | nil => exact hne rfl
        | cons k0 ks =>
          rcases List.isPrefixOf_iff_prefix.mp hpre with ⟨t, ht⟩
          have hk0 : k0 = c := by
            have := congrArg List.head? ht
            simpa using this
          have hw : isWordChar k0 = true := by
            have := List.all_eq_true.mp hall k0 (by simp)
            simpa using this
          rw [hk0] at hw
          rw [space_not_wordChar hc] at hw
          exact absurd hw (by simp)
      · have hcw : isWordChar c = false := space_not_wordChar hc
        rw [hcw] at hr
        exact ih hr
    · rw [List.dropWhile_cons, if_neg hc]
      exact h

theorem stripRight_append (x y : List Char) :
    stripRight (x ++ y) =
      if stripRight y = [] then stripRight x else x ++ stripRight y := by
  induction x with
  | nil =>
    simp only [List.nil_append]
    split
    · rename_i hy
      rw [hy]
      rfl
    · simp
  | cons c x' ih =>
    have lhs : stripRight (c :: (x' ++ y)) =
        (match stripRight (x' ++ y) with
          | [] => if pyIsSpace c then [] else [c]
          | r => c :: r) := rfl
    have rhs : ∀ l : List Char, stripRight (c :: l) =
        (match stripRight l with
          | [] => if pyIsSpace c then [] else [c]
          | r => c :: r) := fun _ => rfl
    by_cases hy : stripRight y = []
    · rw [if_pos hy]
      rw [if_pos hy] at ih
      simp only [List.cons_append, lhs, ih, ← rhs x']
    · rw [if_neg hy]
      rw [if_neg hy] at ih
      cases hsy : stripRight y with
      | nil => exact absurd hsy hy
      | cons d ds =>
        rw [hsy] at ih
        simp only [List.cons_append, lhs, ih]
        cases x' with
        | nil => simp
        | cons e x'' => simp

theorem stripRight_of_last_not_space {x : List Char} {c : Char}
    (h : pyIsSpace c = false) : stripRight (x ++ [c]) = x ++ [c] := by
  rw [stripRight_append]
  have hc : stripRight [c] = [c] := by
    show (match stripRight ([] : List Char) with
      | [] => if pyIsSpace c then [] else [c]
      | r => c :: r) = [c]
    simp [stripRight, h]
  rw [hc]
  simp

theorem stripRight_head? :
    ∀ {s : List Char}, stripRight s ≠ [] → s.head? = (stripRight s).head? := by
  intro s
  cases s with
  | nil => intro h; exact absurd rfl h
  | cons c rest =>
    intro h
    have he : stripRight (c :: rest) =
        (match stripRight rest with
          | [] => if pyIsSpace c then [] else [c]
          | r => c :: r) := rfl
    cases hsr : stripRight rest with
    | nil =>
      rw [he, hsr] at h ⊢
      by_cases hc : pyIsSpace c = true
      · rw [if_pos hc] at h; exact absurd rfl h
      · rw [if_neg hc]; rfl
    | cons d ds => rw [he, hsr]; rfl

theorem wwAux_stripRight {kw : List Char} (hne : kw ≠ [])
    (hall : kw.all isWordChar = true) :
    ∀ {s : List Char} {prev : Bool}, wwAux kw prev s = true →
      wwAux kw prev (stripRight s) = true := by
  intro s
  induction s with
  | nil => intro prev h; simp [wwAux_nil] at h
  | cons c rest ih =>
    intro prev h
    unfold wwAux at h
    rcases Bool.or_eq_true _ _ |>.mp h with hm | hr
    · rcases Bool.and_eq_true _ _ |>.mp hm with ⟨h1, hbnd⟩
      rcases Bool.and_eq_true _ _ |>.mp h1 with ⟨hprev, hpre⟩
      have hprev' : prev = false := by
        cases prev
        · rfl
        · simp at hprev
      subst hprev'
      rcases List.isPrefixOf_iff_prefix.mp hpre with ⟨b, hb⟩
      rw [← hb, stripRight_append]
      rcases List.eq_nil_or_concat kw with hkw | ⟨x, cl, hkw⟩
      · exact absurd hkw hne
      · rw [List.concat_eq_append] at hkw
        have hwcl : isWordChar cl = true := by
          have := List.all_eq_true.mp hall cl (by rw [hkw]; simp)
          simpa using this
        have hcl : pyIsSpace cl = false := isWordChar_not_space hwcl
        have hsk : stripRight kw = kw := by
          rw [hkw]
          exact stripRight_of_last_not_space hcl
        by_cases hsb : stripRight b = []
        · rw [if_pos hsb, hsk]
          exact wwAux_of_head_match hne
            (List.isPrefixOf_iff_prefix.mpr (List.prefix_refl _))
            (by unfold boundaryAfter; rw [List.drop_length])
        · rw [if_neg hsb]
          apply wwAux_of_head_match hne
            (List.isPrefixOf_iff_prefix.mpr (List.prefix_append _ _))
          unfold boundaryAfter
          rw [List.drop_append_of_le_length (le_refl _), List.drop_length,
            List.nil_append]
          -- the first surviving character of `b` is `b`'s original head,
          -- which the original right boundary said is not a word character
          cases hsb' : stripRight b with
          | nil => exact absurd hsb' hsb
          | cons d ds =>
            have hhead : b.head? = some d := by
              rw [stripRight_head? (by rw [hsb']; simp), hsb']
              rfl
            cases b with
            | nil => simp at hhead
            | cons b0 b' =>
              have hb0 : b0 = d := by simpa using hhead
              subst hb0
              unfold boundaryAfter at hbnd
              rw [← hb, List.drop_append_of_le_length (le_refl _),
                List.drop_length, List.nil_append] at hbnd
              exact hbnd
    · have hih := ih hr
      cases hsr : stripRight rest with
      | nil => rw [hsr] at hih; simp [wwAux_nil] at hih
      | cons d ds =>
        have he : stripRight (c :: rest) =
            (match stripRight rest with
              | [] => if pyIsSpace c then [] else [c]
              | r => c :: r) := rfl
        rw [he, hsr]
        unfold wwAux
        rw [hsr] at hih
        rw [hih]
        simp

theorem stripLeft_pyUpper (s : List Char) :
    stripLeft (pyUpper s) = pyUpper (stripLeft s) := by
  unfold stripLeft pyUpper
  rw [List.dropWhile_map]
  have hp : (pyIsSpace ∘ pyToUpper) = pyIsSpace := by
    funext c
    simp [Function.comp, pyIsSpace_pyToUpper]
  rw [hp]

theorem stripRight_pyUpper (s : List Char) :
    stripRight (pyUpper s) = pyUpper (stripRight s) := by
  induction s with
  | nil => rfl
  | cons c rest ih =>
    have he : ∀ (d : Char) (l : List Char), stripRight (d :: l) =
        (match stripRight l with
          | [] => if pyIsSpace d then [] else [d]
          | r => d :: r) := fun _ _ => rfl
    show stripRight (pyToUpper c :: pyUpper rest) = _
    rw [he, he c rest, ih]
    cases hsr : stripRight rest with
    | nil =>
      simp only [pyUpper, List.map_nil, pyIsSpace_pyToUpper]
      by_cases hc : pyIsSpace c = true
      · rw [if_pos hc, if_pos hc]; rfl
      · rw [if_neg hc, if_neg hc]; rfl
    | cons d ds => rfl

theorem pyStrip_pyUpper (s : List Char) :
    pyStrip (pyUpper s) = pyUpper (pyStrip s) := by
  unfold pyStrip
  rw [stripLeft_pyUpper, stripRight_pyUpper]

/-- Whole-word containment in the upper-cased raw query transfers to the
upper-cased stripped query. -/
theorem containsWholeWord_pyStrip {kw s : List Char} (hne : kw ≠ [])
    (hall : kw.all isWordChar = true)
    (h : containsWholeWord kw (pyUpper s) = true) :
    containsWholeWord kw (pyUpper (pyStrip s)) = true := by
  unfold containsWholeWord at h ⊢
  have h1 := wwAux_dropWhile hne hall h
  have h2 := wwAux_stripRight hne hall h1
  rw [show stripRight (List.dropWhile pyIsSpace (pyUpper s)) =
      pyStrip (pyUpper s) from rfl, pyStrip_pyUpper] at h2
  exact h2

/-! ### Behaviour of `validate` -/

theorem validate_error_of_dangerous {q : String} {kw : String}
    (hmem : kw ∈ DANGEROUS_KEYWORDS)
    (h : containsWholeWord kw.data (pyUpper (pyStrip q.data)) = true) :
    ∃ e, validate q = Except.error e := by
  unfold validate
  by_cases hq : pyStrip q.data = []
  · rw [if_pos hq]
    exact ⟨_, rfl⟩
  · rw [if_neg hq]
    cases hfind : checkDangerousKeywords (pyStrip q.data) with
    | some kw' =>
      simp only [hfind]
      exact ⟨_, rfl⟩
    | none =>
      exact absurd h
        (by simpa using List.find?_eq_none.mp hfind kw hmem)

/-- If every other rule passes, acceptance is exactly the SELECT/WITH rule. -/
theorem validate_ok_iff_select {q : String} (hq : pyStrip q.data ≠ [])
    (hdk : checkDangerousKeywords (pyStrip q.data) = none)
    (hinj : checkSqlInjection (pyStrip q.data) = false)
    (hms : hasMultipleStatements (pyStrip q.data) = false) :
    (validate q = Except.ok true ↔ isSelectQuery (pyStrip q.data) = true) := by
  unfold validate
  rw [if_neg hq]
  simp only [hdk, hinj, hms]
  cases hsel : isSelectQuery (pyStrip q.data) with
  | false => simp
  | true => simp

/-- Every non-empty statement failing the SELECT/WITH rule is rejected, and
the raised message states that only SELECT queries are allowed/permitted. -/
theorem validate_reject_non_select {q : String} (hq : pyStrip q.data ≠ [])
    (hsel : isSelectQuery (pyStrip q.data) = false) :
    ∃ e, validate q = Except.error e ∧
      containsSub "Only SELECT queries are".data e.data = true := by
  unfold validate
  rw [if_neg hq]
  cases hfind : checkDangerousKeywords (pyStrip q.data) with
  | some kw =>
    simp only [hfind]
    refine ⟨_, rfl, ?_⟩
    have hmem : kw ∈ DANGEROUS_KEYWORDS := List.mem_of_find?_eq_some hfind
    revert hmem
    have : ∀ kw ∈ DANGEROUS_KEYWORDS,
        containsSub "Only SELECT queries are".data
          ("Dangerous keyword " ++ sq ++ kw ++ sq ++
            " is not allowed. Only SELECT queries are permitted.").data =
          true := by decide
    exact this kw
  | none =>
    simp only [hfind, hsel]
    exact ⟨_, rfl, by decide⟩

/-! ### The claims -/

/-- The fourteen keywords named by the denylist claim (the denylist itself
additionally contains `xp_cmdshell` and `sp_executesql`). -/
def C1_KEYWORDS : List String :=
  ["DROP", "DELETE", "TRUNCATE", "INSERT", "UPDATE",
    "ALTER", "CREATE", "REPLACE", "GRANT", "REVOKE",
    "EXEC", "EXECUTE", "DECLARE", "SHUTDOWN"]

theorem c1_keyword_facts : ∀ kw ∈ C1_KEYWORDS,
    kw ∈ DANGEROUS_KEYWORDS ∧ kw.data ≠ [] ∧ kw.data.all isWordChar = true := by
  decide

/-- C1: for every keyword in {DROP, DELETE, TRUNCATE, INSERT, UPDATE, ALTER,
CREATE, REPLACE, GRANT, REVOKE, EXEC, EXECUTE, DECLARE, SHUTDOWN},
`QueryValidator.validate` raises on any SQL string containing that keyword
as a whole word in any letter case (a whole-word occurrence in any case is
exactly a whole-word occurrence of the keyword in the upper-cased text),
while an otherwise-valid SELECT statement in which such a keyword appears
only inside a longer identifier (a column named `dropdown`) is accepted. -/
theorem C1_denylist_whole_word :
    (∀ (q kw : String), kw ∈ C1_KEYWORDS →
        containsWholeWord kw.data (pyUpper q.data) = true →
        ∃ e, validate q = Except.error e) ∧
      validate "SELECT dropdown FROM customers" = Except.ok true := by
  constructor
  · intro q kw hmem h
    obtain ⟨h1, h2, h3⟩ := c1_keyword_facts kw hmem
    exact validate_error_of_dangerous h1 (containsWholeWord_pyStrip h2 h3 h)
  · rfl

theorem C1_denylist_whole_word_witness :
    ("DELETE" ∈ C1_KEYWORDS) ∧
      containsWholeWord "DELETE".data (pyUpper "delete from orders".data) = true ∧
      ∃ e, validate "delete from orders" = Except.error e :=
  ⟨by decide, by decide,
    C1_denylist_whole_word.1 "delete from orders" "DELETE" (by decide) (by decide)⟩

/-- C2: among statements passing the other rules (non-empty, no denylisted
keyword, no injection pattern, no multiple statements), `validate` accepts
exactly the statements that start with SELECT, or start with WITH and
contain a SELECT (that is exactly `_is_select_query`); the two sample
statements are accepted; every non-empty statement failing that rule is
rejected with a message stating that only SELECT queries are
allowed/permitted — in particular `DROP TABLE customers`, which the
denylist rule rejects first with a message ending in
"Only SELECT queries are permitted." -/
theorem C2_select_only_rule :
    (∀ q : String, pyStrip q.data ≠ [] →
        checkDangerousKeywords (pyStrip q.data) = none →
        checkSqlInjection (pyStrip q.data) = false →
        hasMultipleStatements (pyStrip q.data) = false →
        (validate q = Except.ok true ↔ isSelectQuery (pyStrip q.data) = true)) ∧
      (∀ q : String, pyStrip q.data ≠ [] →
        isSelectQuery (pyStrip q.data) = false →
        ∃ e, validate q = Except.error e ∧
          containsSub "Only SELECT queries are".data e.data = true) ∧
      validate ("SELECT * FROM customers WHERE city = " ++ sq ++ "London" ++ sq) =
        Except.ok true ∧
      validate "WITH recent AS (SELECT 1) SELECT * FROM recent" =
        Except.ok true ∧
      validate "DROP TABLE customers" =
        Except.error ("Dangerous keyword " ++ sq ++ "DROP" ++ sq ++
          " is not allowed. Only SELECT queries are permitted.") ∧
      containsSub "Only SELECT queries are".data
        ("Dangerous keyword " ++ sq ++ "DROP" ++ sq ++
          " is not allowed. Only SELECT queries are permitted.").data = true :=
  ⟨fun _ hq hdk hinj hms => validate_ok_iff_select hq hdk hinj hms,
    fun _ hq hsel => validate_reject_non_select hq hsel,
    rfl, rfl, rfl, by decide⟩

theorem C2_select_only_rule_witness :
    (validate "SELECT 1" = Except.ok true ↔
        isSelectQuery (pyStrip "SELECT 1".data) = true) ∧
      ∃ e, validate "EXPLAIN SELECT 1" = Except.error e ∧
        containsSub "Only SELECT queries are".data e.data = true :=
  ⟨C2_select_only_rule.1 "SELECT 1" (by decide) (by decide) (by decide)
      (by decide),
    C2_select_only_rule.2.1 "EXPLAIN SELECT 1" (by decide) (by decide)⟩

/-- C3 (refuted: the code always raises): for every input SQL string and
every database layer, `QueryExecutor.execute` raises past its own boundary —
an invalid query makes the validator's exception propagate uncaught, and a
valid query makes the tuple unpacking of the validator's boolean return
value raise `TypeError` before the `try` block is entered.  In particular it
never returns the documented success payload, even for the valid query
`SELECT * FROM customers WHERE city = 'London'` against any database. -/
theorem C3_execute_always_raises :
    (∀ (Row : Type) (db : String → Except String (List Row)) (q : String),
        ∃ e, execute db q = Except.error e) ∧
      ∀ db : String → Except String (List Unit),
        execute db ("SELECT * FROM customers WHERE city = " ++ sq ++
            "London" ++ sq) =
          Except.error "TypeError: cannot unpack non-iterable bool object" := by
  constructor
  · intro Row db q
    unfold execute
    cases validate q with
    | error e => exact ⟨e, rfl⟩
    | ok b => exact ⟨_, rfl⟩
  · intro db
    rfl

/-- One failing pass around the generate loop preserves the loop invariant:
the attempt counter stays 0 (the failure branch of `GenerateSQLNode` does
not touch `generation_attempt`), no SQL is stored, `max_attempts` is 3. -/
theorem generateStep_fail_invariant
    {gen : String → Except String (String × String)}
    (hfail : ∀ uq, ∃ e, gen uq = Except.error e) {s : WorkflowState}
    (h1 : s.generation_attempt = 0) (h3 : s.max_attempts = 3) :
    (generateStep gen s).generation_attempt = 0 ∧
      (generateStep gen s).generated_sql = none ∧
      (generateStep gen s).max_attempts = 3 := by
  obtain ⟨e, he⟩ := hfail s.user_query
  unfold generateStep generateSQLNode
  rw [he]
  unfold applyGenUpdate
  exact ⟨h1, rfl, h3⟩

theorem generateStep_iterate_fail
    {gen : String → Except String (String × String)}
    (hfail : ∀ uq, ∃ e, gen uq = Except.error e) (uq : String) :
    ∀ n : Nat,
      ((generateStep gen)^[n] (createInitialState uq)).generation_attempt = 0 ∧
        ((generateStep gen)^[n] (createInitialState uq)).generated_sql = none ∧
        ((generateStep gen)^[n] (createInitialState uq)).max_attempts = 3 := by
  intro n
  induction n with
  | zero => exact ⟨rfl, rfl, rfl⟩
  | succ n ih =>
    rw [Function.iterate_succ_apply']
    exact ⟨(generateStep_fail_invariant hfail ih.1 ih.2.2).1,
      (generateStep_fail_invariant hfail ih.1 ih.2.2).2.1,
      (generateStep_fail_invariant hfail ih.1 ih.2.2).2.2⟩

theorem route_generate_of {s : WorkflowState} (h1 : s.generation_attempt = 0)
    (h2 : s.generated_sql = none) (h3 : s.max_attempts = 3) :
    shouldContinueAfterGeneration s = "generate" := by
  unfold shouldContinueAfterGeneration truthyStr
  rw [h1, h2, h3]
  rfl

/-- C4 (refuted: the loop never terminates): with a generation service that
fails on every call, the failure branch of the Generate node leaves
`generation_attempt` at 0, so `should_continue_after_generation` sees
`0 < max_attempts` after every single pass and routes back to `generate`
forever — after any number of failing Generate executions (in particular
after `max_attempts = 3` of them) the workflow routes to a further Generate
instead of the error terminal. -/
theorem C4_generate_loop_never_reaches_error :
    ∀ gen : String → Except String (String × String),
      (∀ uq, ∃ e, gen uq = Except.error e) →
      ∀ (uq : String) (n : Nat),
        ((generateStep gen)^[n] (createInitialState uq)).generation_attempt = 0 ∧
          shouldContinueAfterGeneration
              ((generateStep gen)^[n] (createInitialState uq)) = "generate" := by
  intro gen hfail uq n
  obtain ⟨h1, h2, h3⟩ := generateStep_iterate_fail hfail uq n
  exact ⟨h1, route_generate_of h1 h2 h3⟩

theorem C4_generate_loop_never_reaches_error_witness :
    ((generateStep fun _ =>
          (Except.error "model unavailable" : Except String (String × String)))^[3]
        (createInitialState "show me all customers")).generation_attempt = 0 ∧
      shouldContinueAfterGeneration
          ((generateStep fun _ =>
              (Except.error "model unavailable" : Except String (String × String)))^[3]
            (createInitialState "show me all customers")) = "generate" :=
  C4_generate_loop_never_reaches_error
    (fun _ => Except.error "model unavailable")
    (fun _ => ⟨"model unavailable", rfl⟩) "show me all customers" 3

/-- C10: when the generation service raises inside the Generate node, the
partial update returned by the node carries exactly the keys
`generated_sql` (absent value), `error_message` and `status`, leaves
`generation_attempt` and `sql_explanation` out (so merging the update keeps
the attempt counter unchanged), and the attempt counter is incremented only
on the success branch. -/
theorem C10_generate_failure_frame :
    (∀ (gen : String → Except String (String × String)) (s : WorkflowState)
        (e : String), gen s.user_query = Except.error e →
        (generateSQLNode gen s).generated_sql = some none ∧
          (generateSQLNode gen s).error_message =
            some (some ("Failed to generate SQL: " ++ e)) ∧
          (generateSQLNode gen s).status = some AgentStatus.FAILED ∧
          (generateSQLNode gen s).generation_attempt = none ∧
          (generateSQLNode gen s).sql_explanation = none ∧
          (applyGenUpdate s (generateSQLNode gen s)).generation_attempt =
            s.generation_attempt) ∧
      ∀ (gen : String → Except String (String × String)) (s : WorkflowState)
        (sql explanation : String), gen s.user_query = Except.ok (sql, explanation) →
        (generateSQLNode gen s).generation_attempt =
          some (s.generation_attempt + 1) := by
  constructor
  · intro gen s e h
    unfold generateSQLNode applyGenUpdate
    rw [h]
    exact ⟨rfl, rfl, rfl, rfl, rfl, rfl⟩
  · intro gen s sql explanation h
    unfold generateSQLNode
    rw [h]

theorem C10_generate_failure_frame_witness :
    ((generateSQLNode (fun _ => Except.error "timeout")
          (createInitialState "count the orders")).generated_sql = some none ∧
        (generateSQLNode (fun _ => Except.error "timeout")
            (createInitialState "count the orders")).error_message =
          some (some ("Failed to generate SQL: " ++ "timeout")) ∧
        (generateSQLNode (fun _ => Except.error "timeout")
            (createInitialState "count the orders")).status =
          some AgentStatus.FAILED ∧
        (generateSQLNode (fun _ => Except.error "timeout")
            (createInitialState "count the orders")).generation_attempt = none ∧
        (generateSQLNode (fun _ => Except.error "timeout")
            (createInitialState "count the orders")).sql_explanation = none ∧
        (applyGenUpdate (createInitialState "count the orders")
              (generateSQLNode (fun _ => Except.error "timeout")
                (createInitialState "count the orders"))).generation_attempt =
          (createInitialState "count the orders").generation_attempt) ∧
      (generateSQLNode (fun _ => Except.ok ("SELECT 1", "a literal one"))
          (createInitialState "count the orders")).generation_attempt =
        some ((createInitialState "count the orders").generation_attempt + 1) :=
  ⟨C10_generate_failure_frame.1 (fun _ => Except.error "timeout")
      (createInitialState "count the orders") "timeout" rfl,
    C10_generate_failure_frame.2 (fun _ => Except.ok ("SELECT 1", "a literal one"))
      (createInitialState "count the orders") "SELECT 1" "a literal one" rfl⟩

/-- C5: `get_query_complexity` maps score 0 to "simple", scores 1 through 5
to "moderate" and scores above 5 to "complex", where the score adds +2 per
whole-word JOIN, +3 per SELECT occurrence beyond the first, +1 per
occurrence of COUNT, SUM, AVG, MIN, MAX, +2 for GROUP BY, +2 for HAVING and
+3 for a leading WITH (the formula is `complexityScore`); in particular
`SELECT * FROM t` scores 0 ("simple"), one JOIN plus one COUNT scores 3
("moderate"), and two JOINs plus GROUP BY plus HAVING scores 8
("complex"). -/
theorem C5_complexity_scoring :
    (∀ q : String, complexityScore q = 0 → getQueryComplexity q = "simple") ∧
      (∀ q : String, 1 ≤ complexityScore q → complexityScore q ≤ 5 →
        getQueryComplexity q = "moderate") ∧
      (∀ q : String, 5 < complexityScore q → getQueryComplexity q = "complex") ∧
      complexityScore "SELECT * FROM t" = 0 ∧
      getQueryComplexity "SELECT * FROM t" = "simple" ∧
      complexityScore "SELECT COUNT(*) FROM a JOIN b ON a.id = b.id" = 3 ∧
      getQueryComplexity "SELECT COUNT(*) FROM a JOIN b ON a.id = b.id" =
        "moderate" ∧
      complexityScore
          "SELECT x FROM a JOIN b ON a.i = b.i JOIN c ON b.j = c.j GROUP BY x HAVING x > 1" =
        8 ∧
      getQueryComplexity
          "SELECT x FROM a JOIN b ON a.i = b.i JOIN c ON b.j = c.j GROUP BY x HAVING x > 1" =
        "complex" := by
  refine ⟨?_, ?_, ?_, by decide, by decide, by decide, by decide, by decide,
    by decide⟩
  · intro q h
    unfold getQueryComplexity
    rw [if_pos h]
  · intro q h1 h2
    unfold getQueryComplexity
    rw [if_neg (by omega), if_pos h2]
  · intro q h
    unfold getQueryComplexity
    rw [if_neg (by omega), if_neg (by omega)]

theorem C5_complexity_scoring_witness :
    1 ≤ complexityScore "SELECT COUNT(*) FROM a JOIN b ON a.id = b.id" ∧
      complexityScore "SELECT COUNT(*) FROM a JOIN b ON a.id = b.id" ≤ 5 ∧
      getQueryComplexity "SELECT COUNT(*) FROM a JOIN b ON a.id = b.id" =
        "moderate" :=
  ⟨by decide, by decide,
    C5_complexity_scoring.2.1 "SELECT COUNT(*) FROM a JOIN b ON a.id = b.id"
      (by decide) (by decide)⟩

/-- Removing the entry a successful `find?` located makes the list strictly
shorter. -/
theorem filter_out_found_length {K V : Type} [DecidableEq K] :
    ∀ (l : List (K × V)) (key : K),
      (l.find? fun p => decide (p.1 = key)).isSome = true →
      (l.filter fun p => !decide (p.1 = key)).length < l.length := by
  intro l
  induction l with
  | nil => intro key h; simp [List.find?] at h
  | cons a l' ih =>
    intro key h
    by_cases ha : a.1 = key
    · have : (List.filter (fun p => !decide (p.1 = key)) (a :: l')) =
          List.filter (fun p => !decide (p.1 = key)) l' := by
        simp [List.filter_cons, ha]
      rw [this]
      have := List.length_filter_le (fun p => !decide (p.1 = key)) l'
      simp only [List.length_cons]
      omega
    · have hf : (l'.find? fun p => decide (p.1 = key)).isSome = true := by
        rw [List.find?_cons] at h
        simpa [ha] using h
      have : (List.filter (fun p => !decide (p.1 = key)) (a :: l')) =
          a :: List.filter (fun p => !decide (p.1 = key)) l' := by
        simp [List.filter_cons, ha]
      rw [this]
      simp only [List.length_cons]
      exact Nat.succ_lt_succ (ih key hf)

/-- Every single cache call keeps the size within `maxsize` (for a positive
`maxsize`) and leaves `maxsize` itself unchanged. -/
theorem applyOp_size_invariant {K V : Type} [DecidableEq K]
    {c : QueryCache K V} (hm : 1 ≤ c.maxsize)
    (h : c.cache.length ≤ c.maxsize) (op : CacheOp K V) :
    (c.applyOp op).cache.length ≤ c.maxsize ∧ (c.applyOp op).maxsize = c.maxsize := by
  cases op with
  | get k =>
    show ((c.get k).2.cache.length ≤ c.maxsize ∧ (c.get k).2.maxsize = c.maxsize)
    unfold QueryCache.get
    cases hf : c.lookupEntry k with
    | none => exact ⟨h, rfl⟩
    | some e =>
      have hlt := filter_out_found_length c.cache k
        (by unfold QueryCache.lookupEntry at hf; rw [hf]; rfl)
      constructor
      · simp only [List.length_append, List.length_cons, List.length_nil]
        omega
      · rfl
  | set k v =>
    show ((c.set k v).cache.length ≤ c.maxsize ∧ (c.set k v).maxsize = c.maxsize)
    unfold QueryCache.set
    by_cases hf : (c.lookupEntry k).isSome = true
    · rw [if_pos hf]
      have hlt := filter_out_found_length c.cache k hf
      constructor
      · simp only [List.length_append, List.length_cons, List.length_nil]
        omega
      · rfl
    · rw [if_neg hf]
      by_cases hlen : c.maxsize ≤ c.cache.length
      · rw [if_pos hlen]
        have hne : c.cache.length ≠ 0 := by omega
        constructor
        · simp only [List.length_append, List.length_tail, List.length_cons,
            List.length_nil]
          omega
        · rfl
      · rw [if_neg hlen]
        constructor
        · simp only [List.length_append, List.length_cons, List.length_nil]
          omega
        · rfl

theorem applyOps_size_invariant {K V : Type} [DecidableEq K] :
    ∀ (ops : List (CacheOp K V)) (c : QueryCache K V), 1 ≤ c.maxsize →
      c.cache.length ≤ c.maxsize →
      (c.applyOps ops).cache.length ≤ c.maxsize ∧
        (c.applyOps ops).maxsize = c.maxsize := by
  intro ops
  induction ops with
  | nil => intro c _ h; exact ⟨h, rfl⟩
  | cons op ops' ih =>
    intro c hm h
    obtain ⟨h1, h2⟩ := applyOp_size_invariant hm h op
    have := ih (c.applyOp op) (by omega) (by omega)
    unfold QueryCache.applyOps at this ⊢
    rw [List.foldl_cons]
    rw [h2] at this
    exact this

/-- C6: on a capacity-50 cache, (i) no sequence of get/set calls ever grows
the cache past 50 entries; (ii) reading a present key returns its value and
moves its entry to the most-recently-used end; (iii) re-setting a present
key also moves it to the most-recently-used end; (iv) inserting a new key
into a full cache of 50 evicts exactly the least-recently-used entry (the
head of the order) and appends the new entry; (v) concretely, inserting 51
distinct keys into an empty capacity-50 cache leaves keys 1..50 — the
first-inserted key 0 is the one evicted. -/
theorem C6_cache_lru :
    (∀ (K V : Type) [DecidableEq K] (ops : List (CacheOp K V)),
        ((QueryCache.init K V 50).applyOps ops).cache.length ≤ 50) ∧
      (∀ (K V : Type) [DecidableEq K] (c : QueryCache K V) (k : K) (e : K × V),
        c.lookupEntry k = some e →
        (c.get k).1 = some e.2 ∧ (c.get k).2.cache.getLast? = some e) ∧
      (∀ (K V : Type) [DecidableEq K] (c : QueryCache K V) (k : K) (v : V),
        (c.lookupEntry k).isSome = true →
        (c.set k v).cache.getLast? = some (k, v)) ∧
      (∀ (K V : Type) [DecidableEq K] (c : QueryCache K V) (k : K) (v : V),
        c.lookupEntry k = none → c.maxsize = 50 → c.cache.length = 50 →
        (c.set k v).cache = c.cache.tail ++ [(k, v)]) ∧
      ((QueryCache.init Nat Nat 50).applyOps
            ((List.range 51).map fun i => CacheOp.set i i)).cache =
        (List.range' 1 50).map fun i => (i, i) := by
  refine ⟨?_, ?_, ?_, ?_, by decide⟩
  · intro K V _ ops
    exact (applyOps_size_invariant ops (QueryCache.init K V 50)
      (by simp [QueryCache.init]) (by simp [QueryCache.init])).1
  · intro K V _ c k e hf
    unfold QueryCache.get
    rw [hf]
    exact ⟨rfl, List.getLast?_concat _⟩
  · intro K V _ c k v hf
    unfold QueryCache.set
    rw [if_pos hf]
    exact List.getLast?_concat _
  · intro K V _ c k v hf hm hlen
    unfold QueryCache.set
    rw [if_neg (by rw [hf]; simp), if_pos (by omega)]


theorem C6_cache_lru_witness :
    ((QueryCache.mk [(1, 10), (2, 20), (3, 30)] 50).get 1).1 = some 10 ∧
      (((QueryCache.mk [(1, 10), (2, 20), (3, 30)] 50).get 1).2).cache.getLast? =
        some (1, 10) ∧
      ((QueryCache.mk [(1, 10), (2, 20), (3, 30)] 50).set 2 99).cache.getLast? =
        some (2, 99) ∧
      ((QueryCache.mk ((List.range' 1 50).map fun i => (i, i)) 50).set 0 0).cache =
        ((List.range' 1 50).map fun i => (i, i)).tail ++ [(0, 0)] :=
  ⟨(C6_cache_lru.2.1 Nat Nat (QueryCache.mk [(1, 10), (2, 20), (3, 30)] 50) 1
      (1, 10) (by decide)).1,
    (C6_cache_lru.2.1 Nat Nat (QueryCache.mk [(1, 10), (2, 20), (3, 30)] 50) 1
      (1, 10) (by decide)).2,
    C6_cache_lru.2.2.1 Nat Nat (QueryCache.mk [(1, 10), (2, 20), (3, 30)] 50) 2
      99 (by decide),
    C6_cache_lru.2.2.2.1 Nat Nat
      (QueryCache.mk ((List.range' 1 50).map fun i => (i, i)) 50) 0 0
      (by decide) rfl (by decide)⟩

/-- Folding `add_message` (with `max_history = 10`) over any message list
keeps exactly the most recent 20 messages: the result is always the suffix
of the total stream after dropping all but the last 20. -/
theorem foldl_addMessage_drop {M : Type} :
    ∀ (L : List M) (h : List M), h.length ≤ 20 →
      L.foldl (addMessage 10) h = (h ++ L).drop ((h ++ L).length - 20) := by
  intro L
  induction L with
  | nil =>
    intro h hle
    simp only [List.foldl_nil, List.append_nil]
    rw [Nat.sub_eq_zero_of_le hle, List.drop_zero]
  | cons m L' ih =>
    intro h hle
    rw [List.foldl_cons]
    by_cases hlen : h.length + 1 ≤ 20
    · have hstep : addMessage 10 h m = h ++ [m] := by
        unfold addMessage
        rw [if_neg (by simp; omega)]
      rw [hstep, ih (h ++ [m]) (by simp; omega)]
      simp [List.append_assoc]
    · have h20 : h.length = 20 := by omega
      have hstep : addMessage 10 h m = (h ++ [m]).drop 1 := by
        unfold addMessage pyTakeLast
        rw [if_pos (by simp; omega), if_neg (by omega)]
        simp only [List.length_append, List.length_cons, List.length_nil, h20]
      rw [hstep]
      have hlen1 : ((h ++ [m]).drop 1).length ≤ 20 := by
        simp only [List.length_drop, List.length_append, List.length_cons,
          List.length_nil, h20]
        omega
      rw [ih _ hlen1]
      have hsplit : (h ++ [m]).drop 1 ++ L' = (h ++ m :: L').drop 1 := by
        rw [show h ++ m :: L' = (h ++ [m]) ++ L' by simp]
        exact (List.drop_append_of_le_length (by simp)).symm
      rw [hsplit, List.drop_drop]
      congr 1
      simp only [List.length_drop, List.length_append, List.length_cons,
        List.length_nil, h20]
      omega

/-- C7: with `max_history = 10`, after adding any sequence of `N` messages
to a fresh session the stored history is exactly the most recent
`min(N, 20)` messages in their original relative order (the suffix after
dropping `N - 20`), hence never more than 20 messages; in particular adding
25 messages leaves exactly the last 20. -/
theorem C7_history_bounding :
    (∀ (M : Type) (L : List M),
        L.foldl (addMessage 10) [] = L.drop (L.length - 20) ∧
          (L.foldl (addMessage 10) []).length ≤ 20) ∧
      (List.range 25).foldl (addMessage 10) [] = List.range' 5 20 := by
  constructor
  · intro M L
    have h := foldl_addMessage_drop L [] (by simp)
    simp only [List.nil_append] at h
    refine ⟨h, ?_⟩
    rw [h]
    simp only [List.length_drop]
    omega
  · decide

/-- C8 counterexample: for `max_length = 2` (smaller than the 3-character
ellipsis) the Python slice bound `max_length - len(suffix)` is negative, so
`text[:-1]` keeps all but the last character and the result `hell...` is
longer than `max_length`. -/
theorem C8_truncate_counterexample :
    truncateText "hello" 2 "..." = "hell..." ∧
      ¬((truncateText "hello" 2 "...").data.length ≤ 2) := by
  constructor
  · decide
  · decide

/-- C8 (amended): `truncate_text` returns the text unchanged when its length
is at most `max_length`; otherwise, provided `max_length` is at least the
suffix length (3 for the default ellipsis), the result's total length
(suffix included) does not exceed `max_length`. -/
theorem C8_truncate_amended :
    (∀ (text : String) (maxLength : Nat) (suffix : String),
        text.data.length ≤ maxLength → truncateText text maxLength suffix = text) ∧
      ∀ (text : String) (maxLength : Nat) (suffix : String),
        suffix.data.length ≤ maxLength →
        (truncateText text maxLength suffix).data.length ≤ maxLength := by
  constructor
  · intro text maxLength suffix h
    unfold truncateText
    rw [if_pos h]
  · intro text maxLength suffix hs
    unfold truncateText
    by_cases h : text.data.length ≤ maxLength
    · rw [if_pos h]
      exact h
    · rw [if_neg h]
      show (pySliceTo ((maxLength : Int) - (suffix.data.length : Int)) text.data ++
          suffix.data).length ≤ maxLength
      unfold pySliceTo
      rw [if_neg (by omega)]
      have htn : ((maxLength : Int) - (suffix.data.length : Int)).toNat =
          maxLength - suffix.data.length := by omega
      rw [htn]
      simp only [List.length_append, List.length_take]
      omega

theorem C8_truncate_amended_witness :
    truncateText "hi" 10 "..." = "hi" ∧
      (truncateText "a rather long piece of text" 10 "...").data.length ≤ 10 :=
  ⟨C8_truncate_amended.1 "hi" 10 "..." (by decide),
    C8_truncate_amended.2 "a rather long piece of text" 10 "..." (by decide)⟩

/-- C9 (refuted: original-case lookups always miss): `_build_indexes` keys
`column_to_tables` by each column name exactly as introspected, while
`find_tables_with_column` lowercases its argument before the lookup; for a
table `Customers` with a column `CustomerID` the lookup key `customerid`
matches no index key, so the table is not found for any letter case of the
column name — including the column's own original-case spelling. -/
theorem C9_find_tables_original_case_misses :
    "CustomerID" ∈ (TableInfo.mk ["CustomerID", "Name"]).columns ∧
      buildColumnToTables [("Customers", TableInfo.mk ["CustomerID", "Name"])] =
        [("CustomerID", ["Customers"]), ("Name", ["Customers"])] ∧
      findTablesWithColumn [("Customers", TableInfo.mk ["CustomerID", "Name"])]
          "CustomerID" = [] ∧
      findTablesWithColumn [("Customers", TableInfo.mk ["CustomerID", "Name"])]
          "customerid" = [] ∧
      findTablesWithColumn [("Customers", TableInfo.mk ["CustomerID", "Name"])]
          "CUSTOMERID" = [] := by
  refine ⟨by decide, by decide, by decide, by decide, by decide⟩

end FYP
